import Mathlib

/-!
Verification development for the solar monitoring capture script
(`src/main.py`).  The script periodically fetches a camera snapshot,
overlays a timestamp and two telemetry lines, and saves the annotated
frame under a timestamped name; at startup it validates the camera
capability response and projects hourly storage growth.

The embedding below models:
  * JSON payloads (`JValue`) with Python truthiness, `dict.get`, and
    `str()` rendering;
  * float values as exact rationals (`Rat`), with `f"{v:.{d}f}"`
    fixed-point formatting modelled by exact round-half-even on the
    rational value (Python rounds the underlying binary float; the two
    agree on all decimally representable inputs used here);
  * wall-clock instants at second resolution (`PyDateTime`) and the
    `strftime` patterns used by the script;
  * the process run (`main_run`) as a deterministic function of a
    configuration, an environment oracle describing every remote
    response, and a fuel bound for the otherwise infinite loop, yielding
    a result, a final file store, and a trace of effect events.
-/

/-- A JSON value as produced by `response.json()`. -/
inductive JValue where
  | jnull : JValue
  | jbool : Bool → JValue
  | jint : Int → JValue
  | jfloat : Rat → JValue
  | jstr : String → JValue
  | jobj : List (String × JValue) → JValue
deriving Repr

/-- Python truthiness (`if not field: ...`): `None`, `False`, `0`, `0.0`,
the empty string and the empty dict are falsy; everything else is truthy. -/
def truthy : JValue → Bool
  | .jnull => false
  | .jbool b => b
  | .jint n => n != 0
  | .jfloat q => q != 0
  | .jstr s => !(s.isEmpty)
  | .jobj l => !(l.isEmpty)

/-- Key lookup in a JSON object (Python dicts have unique keys). -/
def jLookup : List (String × JValue) → String → Option JValue
  | [], _ => none
  | (k, v) :: rest, key => if k = key then some v else jLookup rest key

/-- Python `d.get(key, default)` on a dict. -/
def jGetD (l : List (String × JValue)) (key : String) (dflt : JValue) : JValue :=
  (jLookup l key).getD dflt

/-- Errors a run of the script can die with.  `requestError` stands for a
network failure inside `requests.get`, `jsonError` for an unparseable
payload, `imageError` for `PIL.Image.open` rejecting the body, `osError`
for a filesystem write failure; the rest are the usual Python exception
classes raised by the script itself or by formatting. -/
inductive PyErr where
  | requestError : PyErr
  | jsonError : PyErr
  | imageError : PyErr
  | attributeError : PyErr
  | keyError : PyErr
  | typeError : PyErr
  | valueError : PyErr
  | osError : PyErr
  | runtimeError : String → PyErr
deriving Repr, DecidableEq

/-- A single-quote character, used by Python `repr` of strings. -/
def squote : String := String.singleton (Char.ofNat 39)

/-- Python `str(float)`.  The model stores exact rationals; integral
values render as `"n.0"` exactly as Python does, other rationals use the
rational printer (display-only: no claim inspects such a rendering). -/
def pyFloatStr (q : Rat) : String :=
  if q.den = 1 then toString q.num ++ ".0" else toString q

mutual
/-- Python `repr` of a JSON-decoded value (used for dict members). -/
def pyReprOne : JValue → String
  | .jnull => "None"
  | .jbool true => "True"
  | .jbool false => "False"
  | .jint n => toString n
  | .jfloat q => pyFloatStr q
  | .jstr s => squote ++ s ++ squote
  | .jobj l => "\x7b" ++ pyReprFields l ++ "\x7d"

/-- Comma-separated `repr` rendering of dict entries. -/
def pyReprFields : List (String × JValue) → String
  | [] => ""
  | (k, v) :: rest =>
      let entry := squote ++ k ++ squote ++ ": " ++ pyReprOne v
      if rest.isEmpty then entry else entry ++ ", " ++ pyReprFields rest
end

/-- Python `str()` as used by f-string interpolation: identical to `repr`
except on strings, which render verbatim. -/
def pyStr : JValue → String
  | .jstr s => s
  | v => pyReprOne v

/-- Round to the nearest integer, ties to even — the rounding Python's
fixed-point `format` applies. -/
def roundHalfEven (q : Rat) : Int :=
  let f := ⌊q⌋
  if q - f < 1/2 then f
  else if (1 : Rat)/2 < q - f then f + 1
  else if f % 2 = 0 then f else f + 1

/-- Decimal digits of `n`, zero-padded on the left to exactly `w` digits
(most significant first).  Digits beyond `w` are dropped, which never
happens on the valid inputs used below. -/
def padNat : Nat → Nat → List Char
  | 0, _ => []
  | w + 1, n => padNat w (n / 10) ++ [Nat.digitChar (n % 10)]

/-- Python `f"{q:.{d}f}"` on an exact rational value. -/
def formatFixed (q : Rat) (d : Nat) : String :=
  let n := roundHalfEven (q * (10 : Rat) ^ d)
  let sign := if n < 0 then "-" else ""
  let m := n.natAbs
  if d = 0 then sign ++ toString m
  else sign ++ toString (m / 10 ^ d) ++ "." ++ String.mk (padNat d (m % 10 ^ d))

/-- Parse the precision part of a format specification: Python accepts a
nonempty run of decimal digits and rejects anything else with
`ValueError`. -/
def parsePrec (s : String) : Option Nat :=
  if s.isEmpty then none
  else if s.data.all Char.isDigit then
    some (s.data.foldl (fun a c => a * 10 + (c.toNat - 48)) 0)
  else none

/-- Coerce a JSON value to a number for `f"{value:.{d}f}"`: ints, floats
and bools format numerically, strings raise `ValueError` (unknown format
code for str), `None` and dicts raise `TypeError`. -/
def asNumQ : JValue → Except PyErr Rat
  | .jint n => .ok (n : Rat)
  | .jfloat q => .ok q
  | .jbool b => .ok (if b then 1 else 0)
  | .jstr _ => .error .valueError
  | .jnull => .error .typeError
  | .jobj _ => .error .typeError

/-- `format_opendtu_value` (src/main.py lines 52-60): falsy input yields
`"N/A"`; otherwise the three fields are read with `.get` defaults
`v=0, u="", d=0` and rendered as `f"{value:.{decimals}f} {unit}"`.
A truthy non-dict input raises `AttributeError` at `.get`. -/
def format_opendtu_value (field : JValue) : Except PyErr String :=
  if truthy field = false then .ok "N/A"
  else match field with
    | .jobj l =>
        let vj := jGetD l "v" (.jint 0)
        let uj := jGetD l "u" (.jstr "")
        let dj := jGetD l "d" (.jint 0)
        match asNumQ vj, parsePrec (pyStr dj) with
        | .error e, _ => .error e
        | .ok _, none => .error .valueError
        | .ok v, some d => .ok (formatFixed v d ++ " " ++ pyStr uj)
    | _ => .error .attributeError

/-- A wall-clock instant at the second resolution used by the script
(`datetime.datetime.now()` truncated to the fields `strftime` reads). -/
structure PyDateTime where
  year : Nat
  month : Nat
  day : Nat
  hour : Nat
  minute : Nat
  second : Nat
deriving Repr, DecidableEq

/-- The ranges `datetime` guarantees for its fields. -/
def PyDateTime.valid (t : PyDateTime) : Prop :=
  1 ≤ t.year ∧ t.year ≤ 9999 ∧ 1 ≤ t.month ∧ t.month ≤ 12 ∧ 1 ≤ t.day ∧ t.day ≤ 31 ∧
    t.hour ≤ 23 ∧ t.minute ≤ 59 ∧ t.second ≤ 59

instance (t : PyDateTime) : Decidable t.valid := by
  unfold PyDateTime.valid; infer_instance

/-- Pack a timestamp into one natural number; for valid timestamps this
order coincides with chronological (component-lexicographic) order. -/
def PyDateTime.key (t : PyDateTime) : Nat :=
  ((((t.year * 100 + t.month) * 100 + t.day) * 100 + t.hour) * 100 + t.minute) * 100 + t.second

/-- `now.strftime("%Y%m%d_%H%M%S")` (src/main.py line 100). -/
def fmtCompact (t : PyDateTime) : String :=
  String.mk (padNat 4 t.year ++ padNat 2 t.month ++ padNat 2 t.day ++ ['_'] ++
    padNat 2 t.hour ++ padNat 2 t.minute ++ padNat 2 t.second)

/-- `now.astimezone().strftime("%Y-%m-%d %H:%M:%S %Z")` (lines 37, 80):
`astimezone()` interprets the naive local instant in the system local
zone, so the displayed fields are unchanged and `%Z` appends the system
zone name (an environment datum, not the `TIME_ZONE` constant). -/
def fmtDisplay (t : PyDateTime) (tzname : String) : String :=
  String.mk (padNat 4 t.year ++ ['-'] ++ padNat 2 t.month ++ ['-'] ++ padNat 2 t.day ++
    [' '] ++ padNat 2 t.hour ++ [':'] ++ padNat 2 t.minute ++ [':'] ++ padNat 2 t.second) ++
    " " ++ tzname

/-- The stored-frame path `f"{SAVE_DIR}/image_{timestamp}.jpg"`
(src/main.py line 101). -/
def save_filename (dir : String) (t : PyDateTime) : String :=
  dir ++ "/image_" ++ fmtCompact t ++ ".jpg"

/-- An in-memory frame: an opaque identifier for the fetched pixel data
plus the text lines drawn onto it so far. -/
structure Frame where
  src : Nat
  texts : List ((Int × Int) × String)
deriving Repr, DecidableEq

/-- The local filesystem as a path-to-content store. -/
abbrev FS := List (String × Frame)

/-- Remove a path (`os.remove`, and the implicit replacement on write). -/
def fsErase (k : String) (fs : FS) : FS :=
  fs.filter (fun p => p.1 != k)

/-- Write a file, silently overwriting any existing file at that path. -/
def fsWriteF (k : String) (v : Frame) (fs : FS) : FS :=
  (k, v) :: fsErase k fs

/-- Read a path's content, if present. -/
def fsLookup (k : String) : FS → Option Frame
  | [] => none
  | (k2, v) :: rest => if k2 = k then some v else fsLookup k rest

/-- Observable effects of a run, in order of occurrence. -/
inductive Event where
  | getStatus : Event
  | getSnapshot : Nat → Event
  | getTelemetry : Nat → Event
  | drawText : Int × Int → String → Event
  | fsWrite : String → Event
  | fsGetSize : String → Event
  | fsRemove : String → Event
  | printLine : String → Event
  | sleepSec : Rat → Event
deriving Repr, DecidableEq

/-- The phase of the capture loop an event belongs to. -/
inductive Phase where
  | fetch : Phase
  | annotate : Phase
  | persist : Phase
  | sleep : Phase
  | startup : Phase
deriving Repr, DecidableEq

/-- Classify a loop event by phase (the saved-file log line is part of
persisting; status/estimation events occur only before the loop). -/
def phaseOf : Event → Phase
  | .getSnapshot _ => .fetch
  | .getTelemetry _ => .annotate
  | .drawText _ _ => .annotate
  | .fsWrite _ => .persist
  | .printLine _ => .persist
  | .sleepSec _ => .sleep
  | .getStatus => .startup
  | .fsGetSize _ => .startup
  | .fsRemove _ => .startup

/-- The module-level configuration constants of src/main.py
(lines 36-39) that the claims quantify over. -/
structure Config where
  time_zone : String
  save_dir : String
  timeout : Rat

/-- The literal values in the source: `TIME_ZONE = "Europe/Vienna"`,
`SAVE_DIR = "images"`, `TIMEOUT = 2`. -/
def defaultConfig : Config := ⟨"Europe/Vienna", "images", 2⟩

/-- Everything the outside world decides during a run: each remote
response (indexed by call number), the wall clock, encoded frame sizes,
filesystem write outcomes, and the system timezone name. -/
structure Env where
  cameraStatus : Except PyErr JValue
  snapshot : Nat → Except PyErr Nat
  snapTime : Nat → PyDateTime
  frameSize : Nat → Nat
  telemetry : Nat → Except PyErr JValue
  writeErr : String → Option PyErr
  tzName : String

/-- `get_opendtu_data` (lines 46-49): one telemetry request. -/
def get_opendtu_data (env : Env) (k : Nat) : Except PyErr JValue × List Event :=
  (env.telemetry k, [.getTelemetry k])

/-- `get_camera_status` (lines 63-65): one status request. -/
def get_camera_status (env : Env) : Except PyErr JValue × List Event :=
  (env.cameraStatus, [.getStatus])

/-- `get_image` (lines 68-73): fetch a snapshot, decode it, and stamp it
with the wall-clock time read after the response arrives. -/
def get_image (env : Env) (k : Nat) : Except PyErr (Frame × PyDateTime) × List Event :=
  match env.snapshot k with
  | .error e => (.error e, [.getSnapshot k])
  | .ok src => (.ok ({ src := src, texts := [] }, env.snapTime k), [.getSnapshot k])

/-- `embed_text` (lines 76-96): format the timestamp, fetch telemetry,
build both text lines, then draw the three lines at columns 10,
rows 10/40/70.  Any telemetry or formatting failure occurs before the
first draw. -/
def embed_text (env : Env) (k : Nat) (image : Frame) (now : PyDateTime) :
    Except PyErr Frame × List Event :=
  let timestamp := fmtDisplay now env.tzName
  match get_opendtu_data env k with
  | (.error e, tr) => (.error e, tr)
  | (.ok data, tr) =>
    match data with
    | .jobj top =>
      let total := jGetD top "total" (.jobj [])
      match total with
      | .jobj totalF =>
        let power := jGetD totalF "Power" (.jobj [])
        match format_opendtu_value power with
        | .error e => (.error e, tr)
        | .ok ps =>
          let power_string := "Power: " ++ ps
          let yd := jGetD totalF "YieldDay" (.jobj [])
          match format_opendtu_value yd with
          | .error e => (.error e, tr)
          | .ok ys =>
            let yield_day_string := "Yield Today: " ++ ys
            (.ok { image with texts := image.texts ++
                [((10, 10), timestamp), ((10, 40), power_string), ((10, 70), yield_day_string)] },
             tr ++ [.drawText (10, 10) timestamp, .drawText (10, 40) power_string,
               .drawText (10, 70) yield_day_string])
      | _ => (.error .attributeError, tr)
    | _ => (.error .attributeError, tr)

/-- `save_image` (lines 99-103): format the timestamped path, write the
encoded frame there (overwriting silently), and log the path. -/
def save_image (cfg : Config) (env : Env) (image : Frame) (now : PyDateTime) (fs : FS) :
    Except PyErr Unit × FS × List Event :=
  let filename := save_filename cfg.save_dir now
  match env.writeErr filename with
  | some e => (.error e, fs, [.fsWrite filename])
  | none => (.ok (), fsWriteF filename image fs,
      [.fsWrite filename, .printLine ("Image saved to " ++ filename)])

/-- `estimate_size_per_hour` (lines 106-113): fetch one frame, encode it
to `"test.jpg"` in the working directory, measure it, delete it, and
project `size * 3600 / TIMEOUT`. -/
def estimate_size_per_hour (cfg : Config) (env : Env) (fs : FS) :
    Except PyErr Rat × FS × List Event :=
  match get_image env 0 with
  | (.error e, tr) => (.error e, fs, tr)
  | (.ok (image, _), tr) =>
    match env.writeErr "test.jpg" with
    | some e => (.error e, fs, tr ++ [.fsWrite "test.jpg"])
    | none =>
      let fs1 := fsWriteF "test.jpg" image fs
      let size := env.frameSize image.src
      let fs2 := fsErase "test.jpg" fs1
      (.ok ((size : Rat) * 3600 / cfg.timeout), fs2,
       tr ++ [.fsWrite "test.jpg", .fsGetSize "test.jpg", .fsRemove "test.jpg"])

/-- `estimate_frames_per_hour` (lines 116-117). -/
def estimate_frames_per_hour (cfg : Config) : Rat :=
  3600 / cfg.timeout

/-- Helper loop of `format_byte_size` (lines 15-20). -/
def format_byte_size_go : Rat → List String → String
  | b, [] => formatFixed b 2 ++ " PB"
  | b, u :: us => if b < 1024 then formatFixed b 2 ++ " " ++ u else format_byte_size_go (b / 1024) us

/-- `format_byte_size` (lines 15-20). -/
def format_byte_size (bytes : Rat) : String :=
  format_byte_size_go bytes ["B", "KB", "MB", "GB", "TB"]

/-- Python `==` against an integer literal, as in `height == 0`:
numeric across int/float/bool, `False` otherwise. -/
def pyEqInt : JValue → Int → Bool
  | .jint m, n => m == n
  | .jfloat q, n => q == (n : Rat)
  | .jbool b, n => (if b then (1 : Int) else 0) == n
  | _, _ => false

/-- Python `obj.get(key, default)` on an arbitrary value: raises
`AttributeError` unless the value is a dict. -/
def jGet (v : JValue) (key : String) (dflt : JValue) : Except PyErr JValue :=
  match v with
  | .jobj l => .ok (jGetD l key dflt)
  | _ => .error .attributeError

/-- The startup validation gate, src/main.py lines 121-133: read
`outputs`, require a truthy `snapshot` entry, then require both
dimensions (defaulting absent ones to 0) to differ from 0.  When the
truthiness test passes, `outputs["snapshot"]` returns the same value
`outputs.get("snapshot", False)` produced, so the model reuses it. -/
def validate_capability (status : JValue) : Except PyErr (JValue × JValue) :=
  match jGet status "outputs" (.jobj []) with
  | .error e => .error e
  | .ok outputs =>
    match jGet outputs "snapshot" (.jbool false) with
    | .error e => .error e
    | .ok snap =>
      if truthy snap = false then .error (.runtimeError "Snapshot output is not enabled")
      else
        match jGet snap "height" (.jint 0) with
        | .error e => .error e
        | .ok height =>
          match jGet snap "width" (.jint 0) with
          | .error e => .error e
          | .ok width =>
            if pyEqInt height 0 || pyEqInt width 0 then
              .error (.runtimeError "Invalid snapshot resolution")
            else .ok (width, height)

/-- One iteration of the `while True:` body (lines 142-146): fetch,
annotate, persist, sleep.  An error leaves the store untouched and ends
the run. -/
def loop_iteration (cfg : Config) (env : Env) (j : Nat) (fs : FS) :
    Except PyErr Unit × FS × List Event :=
  match get_image env (j + 1) with
  | (.error e, tr) => (.error e, fs, tr)
  | (.ok (image, now), tr1) =>
    match embed_text env j image now with
    | (.error e, tr2) => (.error e, fs, tr1 ++ tr2)
    | (.ok image2, tr2) =>
      match save_image cfg env image2 now fs with
      | (.error e, fs2, tr3) => (.error e, fs2, tr1 ++ tr2 ++ tr3)
      | (.ok _, fs2, tr3) =>
        (.ok (), fs2, tr1 ++ tr2 ++ tr3 ++ [.sleepSec cfg.timeout])

/-- The `while True:` loop bounded by fuel; iteration `j` performs the
`j+2`-nd snapshot fetch (the estimator performed fetch 0) and the `j`-th
telemetry fetch. -/
def run_loop (cfg : Config) (env : Env) : Nat → Nat → FS → Except PyErr Unit × FS × List Event
  | 0, _, fs => (.ok (), fs, [])
  | n + 1, j, fs =>
    match loop_iteration cfg env j fs with
    | (.error e, fs2, tr) => (.error e, fs2, tr)
    | (.ok _, fs2, tr) =>
      match run_loop cfg env n (j + 1) fs2 with
      | (r, fs3, tr2) => (r, fs3, tr ++ tr2)

/-- `main` (lines 120-146): status fetch, capability validation, the two
startup log lines, the capacity estimate, then the capture loop. -/
def main_run (cfg : Config) (env : Env) (fuel : Nat) (fs : FS) :
    Except PyErr Unit × FS × List Event :=
  match get_camera_status env with
  | (.error e, tr) => (.error e, fs, tr)
  | (.ok status, tr) =>
    match validate_capability status with
    | .error e => (.error e, fs, tr)
    | .ok (width, height) =>
      let tr0 := tr ++
        [Event.printLine ("Snapshot resolution: " ++ pyStr width ++ "x" ++ pyStr height)]
      match estimate_size_per_hour cfg env fs with
      | (.error e, fs2, tr1) => (.error e, fs2, tr0 ++ tr1)
      | (.ok sph, fs2, tr1) =>
        let fph := estimate_frames_per_hour cfg
        let tr2 := tr0 ++ tr1 ++
          [Event.printLine ("Estimated size per hour: " ++ format_byte_size sph ++
            " (" ++ pyFloatStr fph ++ " frames)")]
        match run_loop cfg env fuel 0 fs2 with
        | (r, fs3, tr3) => (r, fs3, tr2 ++ tr3)

/-- The process exit status: 0 on normal return, 1 when an uncaught
exception terminates the interpreter. -/
def exit_code : Except PyErr Unit → Nat
  | .ok _ => 0
  | .error _ => 1

theorem str_nil_append (s : String) : "" ++ s = s := rfl

theorem roundHalfEven_natCast (k : Nat) : roundHalfEven (k : Rat) = (k : Int) := by
  unfold roundHalfEven
  rw [Int.floor_natCast]
  simp only [Int.cast_natCast, sub_self]
  norm_num

/-- Evaluate `formatFixed` once the scaled value is known to be the
natural number `k`. -/
theorem formatFixed_of_mul_eq (q : Rat) (d k : Nat) (h : q * 10 ^ d = (k : Rat)) :
    formatFixed q d =
      (if d = 0 then toString k
       else toString (k / 10 ^ d) ++ "." ++ String.mk (padNat d (k % 10 ^ d))) := by
  unfold formatFixed
  rw [h, roundHalfEven_natCast]
  have hnonneg : ¬((k : Int) < 0) := Int.not_lt.mpr (Int.natCast_nonneg k)
  simp only [hnonneg, if_false, Int.natAbs_ofNat]
  split <;> rw [str_nil_append]

example : formatFixed (1234/10) 2 = "123.40" := by
  rw [formatFixed_of_mul_eq (1234/10) 2 12340 (by norm_num)]
  rfl

/-- C5: `formatReading` round-trip: the reading `{v: 123.4, u: "W", d: 2}`
formats to exactly `"123.40 W"` (value at the declared precision, a
space, the unit), and an absent (empty dict, as supplied by the call
site's `.get(..., {})` default) or `None` reading formats to `"N/A"`. -/
theorem format_reading_roundtrip :
    format_opendtu_value
        (.jobj [("v", .jfloat (1234/10)), ("u", .jstr "W"), ("d", .jint 2)]) =
      .ok "123.40 W" ∧
    format_opendtu_value (.jobj []) = .ok "N/A" ∧
    format_opendtu_value .jnull = .ok "N/A" := by
  refine ⟨?_, rfl, rfl⟩
  show Except.ok (formatFixed (1234/10) 2 ++ " " ++ "W") = Except.ok "123.40 W"
  rw [formatFixed_of_mul_eq (1234/10) 2 12340 (by norm_num)]
  rfl

/-- C6 counterexample: the reading `{"u": "W"}` is non-absent (truthy)
and carries neither a value nor a precision, yet `formatReading` renders
it as `"0 W"`, using the locally supplied defaults `v = 0` and `d = 0` —
so a non-absent reading's output is not built from payload fields alone,
and `"N/A"` is not the only locally supplied output. -/
theorem format_reading_defaults_cex :
    truthy (.jobj [("u", .jstr "W")]) = true ∧
    jLookup [("u", JValue.jstr "W")] "v" = none ∧
    jLookup [("u", JValue.jstr "W")] "d" = none ∧
    format_opendtu_value (.jobj [("u", .jstr "W")]) = .ok "0 W" := by
  refine ⟨rfl, rfl, rfl, ?_⟩
  show Except.ok (formatFixed ((0 : Int) : Rat) 0 ++ " " ++ "W") = Except.ok "0 W"
  rw [formatFixed_of_mul_eq ((0 : Int) : Rat) 0 0 (by norm_num)]
  rfl

/-- C6 amended: when all three fields `v`, `u`, `d` are present in a
non-absent reading (with a numeric value and a well-formed precision),
the output is built exclusively from the payload's value, unit and
precision; fields missing from a non-absent reading are locally
defaulted (`v=0`, `u=""`, `d=0`); an absent or empty reading yields
`"N/A"`, which is the only output for falsy inputs. -/
theorem format_reading_payload_fields (l : List (String × JValue)) (vj dj : JValue)
    (v : Rat) (u : String) (d : Nat)
    (hne : truthy (.jobj l) = true)
    (hv : jLookup l "v" = some vj) (hvn : asNumQ vj = .ok v)
    (hu : jLookup l "u" = some (.jstr u))
    (hd : jLookup l "d" = some dj) (hdp : parsePrec (pyStr dj) = some d) :
    format_opendtu_value (.jobj l) = .ok (formatFixed v d ++ " " ++ u) ∧
    (∀ f : JValue, truthy f = false → format_opendtu_value f = .ok "N/A") := by
  constructor
  · simp only [format_opendtu_value, jGetD, hne, Bool.true_eq_false, if_false, hv, hu, hd,
      Option.getD_some, hvn, hdp]
    rfl
  · intro f hf
    unfold format_opendtu_value
    rw [hf]
    rfl

/-- C6 amended, witness at the fully specified reading
`{v: 123.4, u: "W", d: 2}`. -/
theorem format_reading_payload_fields_witness :
    truthy (.jobj [("v", .jfloat (1234/10)), ("u", .jstr "W"), ("d", .jint 2)]) = true ∧
    format_opendtu_value
        (.jobj [("v", .jfloat (1234/10)), ("u", .jstr "W"), ("d", .jint 2)]) =
      .ok (formatFixed (1234/10) 2 ++ " " ++ "W") :=
  ⟨rfl, (format_reading_payload_fields
      [("v", .jfloat (1234/10)), ("u", .jstr "W"), ("d", .jint 2)]
      (.jfloat (1234/10)) (.jint 2) (1234/10) "W" 2
      rfl rfl rfl rfl rfl rfl).1⟩

/-- C1: the capacity estimate satisfies the spec formulas exactly: with a
sample encoded size `S` and interval `I > 0`, the startup estimator
returns `S*3600/I` bytes per hour and `3600/I` frames per hour; at
`S = 50000`, `I = 2` these are `90000000` and `1800`. -/
theorem estimate_formulas_spec (cfg : Config) (env : Env) (fs : FS) (src : Nat)
    (hI : 0 < cfg.timeout)
    (hsnap : env.snapshot 0 = .ok src)
    (hw : env.writeErr "test.jpg" = none) :
    (estimate_size_per_hour cfg env fs).1 =
      .ok ((env.frameSize src : Rat) * 3600 / cfg.timeout) ∧
    estimate_frames_per_hour cfg = 3600 / cfg.timeout ∧
    (env.frameSize src = 50000 → cfg.timeout = 2 →
      (estimate_size_per_hour cfg env fs).1 = .ok 90000000 ∧
      estimate_frames_per_hour cfg = 1800) := by
  have hmain : (estimate_size_per_hour cfg env fs).1 =
      .ok ((env.frameSize src : Rat) * 3600 / cfg.timeout) := by
    unfold estimate_size_per_hour get_image
    rw [hsnap, hw]
  refine ⟨hmain, rfl, fun hS hT => ⟨?_, ?_⟩⟩
  · rw [hmain, hS, hT]
    norm_num
  · unfold estimate_frames_per_hour
    rw [hT]
    norm_num

/-- C1 witness: default configuration (`TIMEOUT = 2`), one available
snapshot encoding to 50000 bytes. -/
theorem estimate_formulas_spec_witness :
    (0 : Rat) < defaultConfig.timeout ∧
    (estimate_size_per_hour defaultConfig
        ⟨.ok (.jobj []), fun _ => .ok 0, fun _ => ⟨2024, 1, 1, 0, 0, 0⟩,
         fun _ => 50000, fun _ => .ok (.jobj []), fun _ => none, "CET"⟩ []).1 =
      .ok 90000000 ∧
    estimate_frames_per_hour defaultConfig = 1800 := by
  have h := estimate_formulas_spec defaultConfig
    ⟨.ok (.jobj []), fun _ => .ok 0, fun _ => ⟨2024, 1, 1, 0, 0, 0⟩,
     fun _ => 50000, fun _ => .ok (.jobj []), fun _ => none, "CET"⟩ [] 0
    (by norm_num [defaultConfig]) rfl rfl
  exact ⟨by norm_num [defaultConfig], (h.2.2 rfl rfl).1, (h.2.2 rfl rfl).2⟩

/-- A snapshot object reporting a nonzero height is nonempty, hence
truthy. -/
theorem truthy_of_dim {snapF : List (String × JValue)} {h : Int}
    (hh : jGetD snapF "height" (.jint 0) = .jint h) (hpos : 0 < h) :
    truthy (.jobj snapF) = true := by
  cases snapF with
  | nil =>
    simp only [jGetD, jLookup, Option.getD_none, JValue.jint.injEq] at hh
    omega
  | cons a l => rfl

/-- C2: the startup validation gate succeeds for every capability
response whose `snapshot` output object is present (hence truthy) with
`height > 0` and `width > 0`; it raises `CapabilityInvalid`
(`RuntimeError`) whenever the snapshot output is disabled/falsy, or
whenever either dimension equals 0 — including when the dimension field
is absent, since `.get` then defaults it to 0; and a validation failure
aborts the whole process after the single status fetch, with exit
status 1 and no retry. -/
theorem validation_gate_spec :
    (∀ (st out snapF : List (String × JValue)) (h w : Int),
       jGetD st "outputs" (.jobj []) = .jobj out →
       jGetD out "snapshot" (.jbool false) = .jobj snapF →
       jGetD snapF "height" (.jint 0) = .jint h → 0 < h →
       jGetD snapF "width" (.jint 0) = .jint w → 0 < w →
       validate_capability (.jobj st) = .ok (.jint w, .jint h)) ∧
    (∀ (st out : List (String × JValue)),
       jGetD st "outputs" (.jobj []) = .jobj out →
       truthy (jGetD out "snapshot" (.jbool false)) = false →
       validate_capability (.jobj st) =
         .error (.runtimeError "Snapshot output is not enabled")) ∧
    (∀ (st out snapF : List (String × JValue)),
       jGetD st "outputs" (.jobj []) = .jobj out →
       jGetD out "snapshot" (.jbool false) = .jobj snapF →
       truthy (.jobj snapF) = true →
       (jGetD snapF "height" (.jint 0) = .jint 0 ∨ jGetD snapF "width" (.jint 0) = .jint 0) →
       validate_capability (.jobj st) =
         .error (.runtimeError "Invalid snapshot resolution")) ∧
    (∀ (cfg : Config) (env : Env) (fuel : Nat) (fs : FS) (st : JValue) (e : PyErr),
       env.cameraStatus = .ok st → validate_capability st = .error e →
       main_run cfg env fuel fs = (.error e, fs, [.getStatus]) ∧ exit_code (.error e) = 1) := by
  refine ⟨?_, ?_, ?_, ?_⟩
  · intro st out snapF h w h1 h2 hh hhpos hw hwpos
    have ht : truthy (.jobj snapF) = true := truthy_of_dim hh hhpos
    have hh0 : (h == 0) = false := by simp; omega
    have hw0 : (w == 0) = false := by simp; omega
    simp only [validate_capability, jGet, h1, h2, ht, Bool.true_eq_false, if_false, hh, hw,
      pyEqInt, hh0, hw0, Bool.or_false, Bool.false_or, Bool.false_eq_true]
  · intro st out h1 h2
    simp only [validate_capability, jGet, h1, h2, if_true]
  · intro st out snapF h1 h2 ht hor
    rcases hor with hh | hw
    · simp only [validate_capability, jGet, h1, h2, ht, Bool.true_eq_false, if_false, hh,
        pyEqInt]
      simp
    · simp only [validate_capability, jGet, h1, h2, ht, Bool.true_eq_false, if_false, hw,
        pyEqInt]
      simp
  · intro cfg env fuel fs st e hst hval
    refine ⟨?_, rfl⟩
    unfold main_run get_camera_status
    rw [hst]
    simp only [hval]

/-- C2 witness: a 640x480 capability with the snapshot output enabled
passes the gate; the same response with `height = 0` fails it. -/
theorem validation_gate_spec_witness :
    validate_capability
        (.jobj [("outputs", .jobj [("snapshot",
          .jobj [("height", .jint 480), ("width", .jint 640)])])]) =
      .ok (.jint 640, .jint 480) ∧
    validate_capability
        (.jobj [("outputs", .jobj [("snapshot",
          .jobj [("height", .jint 0), ("width", .jint 640)])])]) =
      .error (.runtimeError "Invalid snapshot resolution") :=
  ⟨validation_gate_spec.1
      [("outputs", .jobj [("snapshot", .jobj [("height", .jint 480), ("width", .jint 640)])])]
      [("snapshot", .jobj [("height", .jint 480), ("width", .jint 640)])]
      [("height", .jint 480), ("width", .jint 640)] 480 640
      rfl rfl rfl (by norm_num) rfl (by norm_num),
   validation_gate_spec.2.2.1
      [("outputs", .jobj [("snapshot", .jobj [("height", .jint 0), ("width", .jint 640)])])]
      [("snapshot", .jobj [("height", .jint 0), ("width", .jint 640)])]
      [("height", .jint 0), ("width", .jint 640)]
      rfl rfl rfl (Or.inl rfl)⟩

theorem fsLookup_fsErase_self (k : String) (fs : FS) :
    fsLookup k (fsErase k fs) = none := by
  induction fs with
  | nil => rfl
  | cons a rest ih =>
    unfold fsErase at ih ⊢
    rw [List.filter_cons]
    by_cases hk : a.1 = k
    · rw [if_neg (by simp [hk])]
      exact ih
    · rw [if_pos (by simpa using hk)]
      unfold fsLookup
      rw [if_neg hk]
      exact ih

theorem fsLookup_fsErase_ne (k p : String) (fs : FS) (hne : p ≠ k) :
    fsLookup p (fsErase k fs) = fsLookup p fs := by
  induction fs with
  | nil => rfl
  | cons a rest ih =>
    unfold fsErase at ih ⊢
    rw [List.filter_cons]
    by_cases hk : a.1 = k
    · rw [if_neg (by simp [hk])]
      have hap : ¬(a.1 = p) := fun h => hne ((h.symm.trans hk))
      rw [ih]
      conv_rhs => unfold fsLookup
      rw [if_neg hap]
    · rw [if_pos (by simpa using hk)]
      conv_lhs => unfold fsLookup
      conv_rhs => unfold fsLookup
      split
      · rfl
      · exact ih

theorem fsLookup_fsWriteF_self (k : String) (v : Frame) (fs : FS) :
    fsLookup k (fsWriteF k v fs) = some v := by
  simp [fsWriteF, fsLookup]

/-- C9: the capacity estimator writes its temporary encoding to the path
`"test.jpg"` in the working directory (a path no stored frame can ever
occupy, since every stored-frame path carries the directory separator),
overwrites any pre-existing file there, and removes it before returning,
so the final store has no `"test.jpg"` entry and every other path —
including everything under the output directory — is untouched. -/
theorem estimator_tempfile_effects (cfg : Config) (env : Env) (fs : FS) (src : Nat)
    (hsnap : env.snapshot 0 = .ok src) (hw : env.writeErr "test.jpg" = none) :
    (estimate_size_per_hour cfg env fs).2.2 =
      [.getSnapshot 0, .fsWrite "test.jpg", .fsGetSize "test.jpg", .fsRemove "test.jpg"] ∧
    (estimate_size_per_hour cfg env fs).2.1 =
      fsErase "test.jpg" (fsWriteF "test.jpg" ⟨src, []⟩ fs) ∧
    fsLookup "test.jpg" (fsWriteF "test.jpg" ⟨src, []⟩ fs) = some ⟨src, []⟩ ∧
    fsLookup "test.jpg" (estimate_size_per_hour cfg env fs).2.1 = none ∧
    (∀ p, p ≠ "test.jpg" →
      fsLookup p (estimate_size_per_hour cfg env fs).2.1 = fsLookup p fs) ∧
    (∀ t : PyDateTime, save_filename cfg.save_dir t ≠ "test.jpg") := by
  have hout : estimate_size_per_hour cfg env fs =
      (.ok ((env.frameSize src : Rat) * 3600 / cfg.timeout),
       fsErase "test.jpg" (fsWriteF "test.jpg" ⟨src, []⟩ fs),
       [.getSnapshot 0, .fsWrite "test.jpg", .fsGetSize "test.jpg", .fsRemove "test.jpg"]) := by
    unfold estimate_size_per_hour get_image
    rw [hsnap, hw]
    rfl
  refine ⟨by rw [hout], by rw [hout], fsLookup_fsWriteF_self _ _ _, ?_, ?_, ?_⟩
  · rw [hout]
    exact fsLookup_fsErase_self _ _
  · intro p hp
    rw [hout]
    show fsLookup p (fsErase "test.jpg" (fsWriteF "test.jpg" ⟨src, []⟩ fs)) = fsLookup p fs
    rw [fsLookup_fsErase_ne _ _ _ hp]
    unfold fsWriteF
    conv_lhs => unfold fsLookup
    rw [if_neg (fun h => hp h.symm)]
    exact fsLookup_fsErase_ne _ _ _ hp
  · intro t heq
    have hd : (save_filename cfg.save_dir t).data = "test.jpg".data := by rw [heq]
    have hmem : (Char.ofNat 47) ∈ (save_filename cfg.save_dir t).data := by
      unfold save_filename
      simp only [String.data_append]
      refine List.mem_append.mpr (Or.inl (List.mem_append.mpr (Or.inl ?_)))
      refine List.mem_append.mpr (Or.inr ?_)
      decide
    rw [hd] at hmem
    revert hmem
    decide

/-- C9 witness: default configuration, a pre-existing `"test.jpg"` and a
stored frame in the output directory. -/
theorem estimator_tempfile_effects_witness :
    fsLookup "test.jpg"
        (estimate_size_per_hour defaultConfig
          ⟨.ok (.jobj []), fun _ => .ok 4, fun _ => ⟨2024, 1, 1, 0, 0, 0⟩,
           fun _ => 50000, fun _ => .ok (.jobj []), fun _ => none, "CET"⟩
          [("test.jpg", ⟨9, []⟩), ("images/image_20240101_000000.jpg", ⟨8, []⟩)]).2.1 =
      none ∧
    fsLookup "images/image_20240101_000000.jpg"
        (estimate_size_per_hour defaultConfig
          ⟨.ok (.jobj []), fun _ => .ok 4, fun _ => ⟨2024, 1, 1, 0, 0, 0⟩,
           fun _ => 50000, fun _ => .ok (.jobj []), fun _ => none, "CET"⟩
          [("test.jpg", ⟨9, []⟩), ("images/image_20240101_000000.jpg", ⟨8, []⟩)]).2.1 =
      fsLookup "images/image_20240101_000000.jpg"
        [("test.jpg", ⟨9, []⟩), ("images/image_20240101_000000.jpg", ⟨8, []⟩)] := by
  have h := estimator_tempfile_effects defaultConfig
    ⟨.ok (.jobj []), fun _ => .ok 4, fun _ => ⟨2024, 1, 1, 0, 0, 0⟩,
     fun _ => 50000, fun _ => .ok (.jobj []), fun _ => none, "CET"⟩
    [("test.jpg", ⟨9, []⟩), ("images/image_20240101_000000.jpg", ⟨8, []⟩)] 4 rfl rfl
  exact ⟨h.2.2.2.1, h.2.2.2.2.1 _ (by decide)⟩

/-- C3: annotation is all-or-nothing: when the telemetry fetch of
iteration `j` fails, the failure propagates out of `embed_text` before
any text is drawn, the iteration produces no draw event and no file
write, the store is exactly what it was before the iteration (every file
from prior iterations intact), and the iteration's result is the
telemetry error itself. -/
theorem annotation_all_or_nothing (cfg : Config) (env : Env) (j : Nat) (fs : FS)
    (src : Nat) (e : PyErr)
    (hsnap : env.snapshot (j + 1) = .ok src)
    (htel : env.telemetry j = .error e) :
    embed_text env j ⟨src, []⟩ (env.snapTime (j + 1)) = (.error e, [.getTelemetry j]) ∧
    loop_iteration cfg env j fs =
      (.error e, fs, [.getSnapshot (j + 1), .getTelemetry j]) ∧
    (∀ pos s, Event.drawText pos s ∉ (loop_iteration cfg env j fs).2.2) ∧
    (∀ p, Event.fsWrite p ∉ (loop_iteration cfg env j fs).2.2) ∧
    (loop_iteration cfg env j fs).2.1 = fs := by
  have hembed : embed_text env j ⟨src, []⟩ (env.snapTime (j + 1)) =
      (.error e, [.getTelemetry j]) := by
    unfold embed_text get_opendtu_data
    rw [htel]
  have hiter : loop_iteration cfg env j fs =
      (.error e, fs, [.getSnapshot (j + 1), .getTelemetry j]) := by
    unfold loop_iteration get_image
    rw [hsnap]
    show (match embed_text env j ⟨src, []⟩ (env.snapTime (j + 1)) with
      | (Except.error e, tr2) => (Except.error e, fs, [Event.getSnapshot (j + 1)] ++ tr2)
      | (Except.ok image2, tr2) =>
        match save_image cfg env image2 (env.snapTime (j + 1)) fs with
        | (Except.error e, fs2, tr3) =>
          (Except.error e, fs2, [Event.getSnapshot (j + 1)] ++ tr2 ++ tr3)
        | (Except.ok _, fs2, tr3) =>
          (Except.ok (), fs2,
            [Event.getSnapshot (j + 1)] ++ tr2 ++ tr3 ++ [Event.sleepSec cfg.timeout])) =
      (Except.error e, fs, [Event.getSnapshot (j + 1), Event.getTelemetry j])
    rw [hembed]
    rfl
  refine ⟨hembed, hiter, ?_, ?_, by rw [hiter]⟩
  · intro pos s
    rw [hiter]
    simp
  · intro p
    rw [hiter]
    simp

/-- C3 witness: a failing telemetry endpoint in iteration 0 with a frame
already stored from a prior iteration. -/
theorem annotation_all_or_nothing_witness :
    loop_iteration defaultConfig
        ⟨.ok (.jobj []), fun _ => .ok 4, fun _ => ⟨2024, 1, 1, 0, 0, 0⟩,
         fun _ => 50000, fun _ => .error .requestError, fun _ => none, "CET"⟩ 0
        [("images/image_20240101_000000.jpg", ⟨8, []⟩)] =
      (.error .requestError, [("images/image_20240101_000000.jpg", ⟨8, []⟩)],
       [.getSnapshot 1, .getTelemetry 0]) :=
  (annotation_all_or_nothing defaultConfig
    ⟨.ok (.jobj []), fun _ => .ok 4, fun _ => ⟨2024, 1, 1, 0, 0, 0⟩,
     fun _ => 50000, fun _ => .error .requestError, fun _ => none, "CET"⟩ 0
    [("images/image_20240101_000000.jpg", ⟨8, []⟩)] 4 .requestError rfl rfl).2.1

theorem loop_iteration_tz (tz1 tz2 sd : String) (q : Rat) (env : Env) (j : Nat) (fs : FS) :
    loop_iteration ⟨tz1, sd, q⟩ env j fs = loop_iteration ⟨tz2, sd, q⟩ env j fs := rfl

theorem run_loop_tz (tz1 tz2 sd : String) (q : Rat) (env : Env) :
    ∀ (n j : Nat) (fs : FS),
      run_loop ⟨tz1, sd, q⟩ env n j fs = run_loop ⟨tz2, sd, q⟩ env n j fs := by
  intro n
  induction n with
  | zero => intro j fs; rfl
  | succ n ih =>
    intro j fs
    unfold run_loop
    rw [loop_iteration_tz tz1 tz2 sd q env j fs]
    simp only [ih]

/-- C10: the configured display-timezone constant `TIME_ZONE` is never
consulted: two runs that differ only in its value produce identical
results, file stores, and event traces — in particular identical
annotated timestamp texts (which use the system local timezone from the
environment) and identical saved filenames (naive local time). -/
theorem timezone_constant_unused (tz1 tz2 sd : String) (q : Rat) (env : Env)
    (fuel : Nat) (fs : FS) :
    main_run ⟨tz1, sd, q⟩ env fuel fs = main_run ⟨tz2, sd, q⟩ env fuel fs := by
  unfold main_run
  simp only [run_loop_tz tz1 tz2 sd q env]
  rfl

theorem list_lt_append_right (xs : List Char) {as bs : List Char} (h : as < bs) :
    xs ++ as < xs ++ bs := by
  induction xs with
  | nil => exact h
  | cons x xs ih => exact List.Lex.cons ih

theorem list_lt_append_congr {xs ys : List Char} (as bs : List Char)
    (hlen : xs.length = ys.length) (h : xs < ys) : xs ++ as < ys ++ bs := by
  have h' : List.Lex (· < ·) xs ys := h
  clear h
  revert hlen
  induction h' with
  | nil => intro hlen; simp at hlen
  | cons _ ih => intro hlen; exact List.Lex.cons (ih (by simpa using hlen))
  | rel hr => intro _; exact List.Lex.rel hr

theorem padNat_length (w : Nat) : ∀ n, (padNat w n).length = w := by
  induction w with
  | zero => intro n; rfl
  | succ w ih => intro n; simp [padNat, ih]

theorem digitChar_mono : ∀ a, a < 10 → ∀ b, b < 10 → a < b →
    Nat.digitChar a < Nat.digitChar b := by decide

theorem padNat_lt : ∀ (w : Nat) {m n : Nat}, m < n → n < 10 ^ w →
    padNat w m < padNat w n := by
  intro w
  induction w with
  | zero =>
    intro m n hmn hn
    norm_num at hn
    omega
  | succ w ih =>
    intro m n hmn hn
    have hps : (10 : Nat) ^ (w + 1) = 10 ^ w * 10 := pow_succ 10 w
    unfold padNat
    rcases Nat.lt_or_ge (m / 10) (n / 10) with hq | hq
    · exact list_lt_append_congr _ _ (by rw [padNat_length, padNat_length])
        (ih hq (by omega))
    · have hq2 : m / 10 = n / 10 := by omega
      have hr : m % 10 < n % 10 := by omega
      rw [hq2]
      exact list_lt_append_right _
        (List.Lex.rel (digitChar_mono _ (by omega) _ (by omega) hr))

theorem nat_div10_split (c b : Nat) : (c * 10 + b) / 10 = c + b / 10 := by omega

theorem nat_mod10_split (c b : Nat) : (c * 10 + b) % 10 = b % 10 := by omega

theorem padNat_split : ∀ (w2 w1 a b : Nat), b < 10 ^ w2 →
    padNat (w1 + w2) (a * 10 ^ w2 + b) = padNat w1 a ++ padNat w2 b := by
  intro w2
  induction w2 with
  | zero =>
    intro w1 a b hb
    norm_num at hb
    subst hb
    simp [padNat]
  | succ w2 ih =>
    intro w1 a b hb
    have hps : (10 : Nat) ^ (w2 + 1) = 10 ^ w2 * 10 := pow_succ 10 w2
    have h1 : w1 + (w2 + 1) = (w1 + w2) + 1 := by omega
    have hdiv : (a * 10 ^ (w2 + 1) + b) / 10 = a * 10 ^ w2 + b / 10 := by
      rw [hps, ← mul_assoc]
      exact nat_div10_split _ _
    have hmod : (a * 10 ^ (w2 + 1) + b) % 10 = b % 10 := by
      rw [hps, ← mul_assoc]
      exact nat_mod10_split _ _
    rw [h1]
    show padNat (w1 + w2) ((a * 10 ^ (w2 + 1) + b) / 10) ++
        [Nat.digitChar ((a * 10 ^ (w2 + 1) + b) % 10)] =
      padNat w1 a ++ (padNat w2 (b / 10) ++ [Nat.digitChar (b % 10)])
    rw [hdiv, hmod, ih w1 a (b / 10) (by omega), List.append_assoc]

/-- Specialization of `padNat_split` to a two-digit (base-100) slot with
the result width given explicitly. -/
theorem padNat_split2 (w w1 a b : Nat) (hw : w = w1 + 2) (hb : b < 100) :
    padNat w (a * 100 + b) = padNat w1 a ++ padNat 2 b := by
  subst hw
  have h := padNat_split 2 w1 a b (by norm_num; omega)
  norm_num at h
  exact h

/-- The date part of a packed timestamp key. -/
def dateKey (t : PyDateTime) : Nat :=
  (t.year * 100 + t.month) * 100 + t.day

/-- The time-of-day part of a packed timestamp key. -/
def timeKey (t : PyDateTime) : Nat :=
  (t.hour * 100 + t.minute) * 100 + t.second

theorem fmtCompact_data (t : PyDateTime) (h2 : t.month < 100) (h3 : t.day < 100)
    (h4 : t.minute < 100) (h5 : t.second < 100) :
    (fmtCompact t).data = padNat 8 (dateKey t) ++ ['_'] ++ padNat 6 (timeKey t) := by
  unfold fmtCompact dateKey timeKey
  rw [padNat_split2 8 6 (t.year * 100 + t.month) t.day rfl h3,
    padNat_split2 6 4 t.year t.month rfl h2,
    padNat_split2 6 4 (t.hour * 100 + t.minute) t.second rfl h5,
    padNat_split2 4 2 t.hour t.minute rfl h4]
  simp [List.append_assoc]

theorem dateKey_lt_bound (t : PyDateTime) (h : t.valid) : dateKey t < 10 ^ 8 := by
  obtain ⟨_, h2, _, h4, _, h6, _, _, _⟩ := h
  unfold dateKey
  norm_num
  omega

theorem timeKey_lt_bound (t : PyDateTime) (h : t.valid) : timeKey t < 10 ^ 6 := by
  obtain ⟨_, _, _, _, _, _, h7, h8, h9⟩ := h
  unfold timeKey
  norm_num
  omega

theorem key_split (t : PyDateTime) : t.key = dateKey t * 1000000 + timeKey t := by
  unfold PyDateTime.key dateKey timeKey
  ring

theorem save_filename_lt (dir : String) {t1 t2 : PyDateTime}
    (h1 : t1.valid) (h2 : t2.valid) (hk : t1.key < t2.key) :
    save_filename dir t1 < save_filename dir t2 := by
  rw [String.lt_iff_toList_lt]
  show (save_filename dir t1).data < (save_filename dir t2).data
  have hb1 := dateKey_lt_bound t1 h1
  have hb2 := dateKey_lt_bound t2 h2
  have ht1 := timeKey_lt_bound t1 h1
  have ht2 := timeKey_lt_bound t2 h2
  have hd1 : (fmtCompact t1).data = padNat 8 (dateKey t1) ++ ['_'] ++ padNat 6 (timeKey t1) := by
    obtain ⟨_, _, _, c1, _, c2, _, c3, c4⟩ := h1
    exact fmtCompact_data t1 (by omega) (by omega) (by omega) (by omega)
  have hd2 : (fmtCompact t2).data = padNat 8 (dateKey t2) ++ ['_'] ++ padNat 6 (timeKey t2) := by
    obtain ⟨_, _, _, c1, _, c2, _, c3, c4⟩ := h2
    exact fmtCompact_data t2 (by omega) (by omega) (by omega) (by omega)
  unfold save_filename
  simp only [String.data_append, hd1, hd2, List.append_assoc]
  apply list_lt_append_right
  apply list_lt_append_right
  have hcase : dateKey t1 < dateKey t2 ∨
      (dateKey t1 = dateKey t2 ∧ timeKey t1 < timeKey t2) := by
    rw [key_split, key_split] at hk
    omega
  rcases hcase with hD | ⟨hDeq, hT⟩
  · exact list_lt_append_congr _ _ (by rw [padNat_length, padNat_length])
      (padNat_lt 8 hD hb2)
  · rw [hDeq]
    apply list_lt_append_right
    apply list_lt_append_right
    exact list_lt_append_congr _ _ (by rw [padNat_length, padNat_length])
      (padNat_lt 6 hT ht2)

theorem key_inj {t1 t2 : PyDateTime} (h1 : t1.valid) (h2 : t2.valid)
    (hk : t1.key = t2.key) : t1 = t2 := by
  cases t1
  cases t2
  simp only [PyDateTime.valid] at h1 h2
  simp only [PyDateTime.key] at hk
  simp only [PyDateTime.mk.injEq]
  omega

/-- C4: stored-frame filenames are `{dir}/image_{YYYYMMDD_HHMMSS}.jpg`,
deterministic in the capture timestamp at second resolution: equal
seconds give the identical filename, the later save of a colliding name
silently overwrites (the store keeps the later frame), and a strictly
later timestamp gives a distinct, lexicographically greater filename, so
filenames are monotonically non-decreasing in capture order. -/
theorem filename_determinism_order (dir : String) (t1 t2 : PyDateTime)
    (h1 : t1.valid) (h2 : t2.valid) :
    (t1.key = t2.key → save_filename dir t1 = save_filename dir t2) ∧
    (t1.key < t2.key →
      save_filename dir t1 ≠ save_filename dir t2 ∧
      save_filename dir t1 < save_filename dir t2) ∧
    (∀ (cfg : Config) (env : Env) (im1 im2 : Frame) (fs : FS),
      env.writeErr (save_filename cfg.save_dir t1) = none →
      fsLookup (save_filename cfg.save_dir t1)
        ((save_image cfg env im2 t1 ((save_image cfg env im1 t1 fs).2.1)).2.1) = some im2) := by
  refine ⟨fun hk => by rw [key_inj h1 h2 hk], fun hk => ⟨?_, save_filename_lt dir h1 h2 hk⟩, ?_⟩
  · exact ne_of_lt (save_filename_lt dir h1 h2 hk)
  · intro cfg env im1 im2 fs hw
    simp only [save_image, hw]
    exact fsLookup_fsWriteF_self _ _ _

/-- C4 witness: two valid timestamps one second apart under the default
output directory. -/
theorem filename_determinism_order_witness :
    PyDateTime.valid ⟨2024, 6, 1, 12, 0, 5⟩ ∧ PyDateTime.valid ⟨2024, 6, 1, 12, 0, 6⟩ ∧
    PyDateTime.key ⟨2024, 6, 1, 12, 0, 5⟩ < PyDateTime.key ⟨2024, 6, 1, 12, 0, 6⟩ ∧
    save_filename "images" ⟨2024, 6, 1, 12, 0, 5⟩ ≠ save_filename "images" ⟨2024, 6, 1, 12, 0, 6⟩ ∧
    save_filename "images" ⟨2024, 6, 1, 12, 0, 5⟩ < save_filename "images" ⟨2024, 6, 1, 12, 0, 6⟩ :=
  ⟨by decide, by decide, by decide,
   ((filename_determinism_order "images" ⟨2024, 6, 1, 12, 0, 5⟩ ⟨2024, 6, 1, 12, 0, 6⟩
      (by decide) (by decide)).2.1 (by decide)).1,
   ((filename_determinism_order "images" ⟨2024, 6, 1, 12, 0, 5⟩ ⟨2024, 6, 1, 12, 0, 6⟩
      (by decide) (by decide)).2.1 (by decide)).2⟩

/-- Exhaustive outcomes of one `embed_text` call: the telemetry fetch
fails; or it succeeds and a parse/format step fails (either way the
failure precedes every draw); or everything succeeds and exactly the
three text lines are drawn. -/
theorem embed_text_char (env : Env) (k : Nat) (im : Frame) (now : PyDateTime) :
    (∃ e, env.telemetry k = .error e ∧
       embed_text env k im now = (.error e, [.getTelemetry k])) ∨
    (∃ d, env.telemetry k = .ok d ∧ ∃ e,
       embed_text env k im now = (.error e, [.getTelemetry k])) ∨
    (∃ d, env.telemetry k = .ok d ∧ ∃ s1 s2 s3 im2,
       embed_text env k im now = (.ok im2, [.getTelemetry k, .drawText (10, 10) s1,
         .drawText (10, 40) s2, .drawText (10, 70) s3])) := by
  cases htel : env.telemetry k with
  | error e =>
    left
    refine ⟨e, rfl, ?_⟩
    simp only [embed_text, get_opendtu_data, htel]
  | ok d =>
    right
    cases d with
    | jobj top =>
      cases htot : jGetD top "total" (.jobj []) with
      | jobj totalF =>
        cases hfp : format_opendtu_value (jGetD totalF "Power" (.jobj [])) with
        | error e =>
          left
          refine ⟨.jobj top, rfl, e, ?_⟩
          simp only [embed_text, get_opendtu_data, htel, htot, hfp]
        | ok ps =>
          cases hfy : format_opendtu_value (jGetD totalF "YieldDay" (.jobj [])) with
          | error e =>
            left
            refine ⟨.jobj top, rfl, e, ?_⟩
            simp only [embed_text, get_opendtu_data, htel, htot, hfp, hfy]
          | ok ys =>
            right
            refine ⟨.jobj top, rfl, fmtDisplay now env.tzName, "Power: " ++ ps,
              "Yield Today: " ++ ys,
              { im with texts := im.texts ++
                  [((10, 10), fmtDisplay now env.tzName), ((10, 40), "Power: " ++ ps),
                   ((10, 70), "Yield Today: " ++ ys)] }, ?_⟩
            simp only [embed_text, get_opendtu_data, htel, htot, hfp, hfy]
            rfl
      | jnull =>
        left
        exact ⟨.jobj top, rfl, .attributeError, by
          simp only [embed_text, get_opendtu_data, htel, htot]⟩
      | jbool b =>
        left
        exact ⟨.jobj top, rfl, .attributeError, by
          simp only [embed_text, get_opendtu_data, htel, htot]⟩
      | jint n =>
        left
        exact ⟨.jobj top, rfl, .attributeError, by
          simp only [embed_text, get_opendtu_data, htel, htot]⟩
      | jfloat q =>
        left
        exact ⟨.jobj top, rfl, .attributeError, by
          simp only [embed_text, get_opendtu_data, htel, htot]⟩
      | jstr s =>
        left
        exact ⟨.jobj top, rfl, .attributeError, by
          simp only [embed_text, get_opendtu_data, htel, htot]⟩
    | jnull =>
      left
      exact ⟨.jnull, rfl, .attributeError, by simp only [embed_text, get_opendtu_data, htel]⟩
    | jbool b =>
      left
      exact ⟨.jbool b, rfl, .attributeError, by simp only [embed_text, get_opendtu_data, htel]⟩
    | jint n =>
      left
      exact ⟨.jint n, rfl, .attributeError, by simp only [embed_text, get_opendtu_data, htel]⟩
    | jfloat q =>
      left
      exact ⟨.jfloat q, rfl, .attributeError, by simp only [embed_text, get_opendtu_data, htel]⟩
    | jstr s =>
      left
      exact ⟨.jstr s, rfl, .attributeError, by simp only [embed_text, get_opendtu_data, htel]⟩

/-- Exhaustive outcomes of one loop iteration: the snapshot fetch fails;
or annotation fails (telemetry error or malformed payload) with no draw
and no write; or the write fails after the three draws; or the iteration
succeeds, writing exactly one file and sleeping for the configured
interval.  In every failing case the store is unchanged and the failing
operation's error is the iteration's result. -/
theorem loop_iteration_char (cfg : Config) (env : Env) (j : Nat) (fs : FS) :
    (∃ e, env.snapshot (j + 1) = .error e ∧
       loop_iteration cfg env j fs = (.error e, fs, [.getSnapshot (j + 1)])) ∨
    (∃ src, env.snapshot (j + 1) = .ok src ∧ ∃ e,
       loop_iteration cfg env j fs = (.error e, fs, [.getSnapshot (j + 1), .getTelemetry j]) ∧
       (∀ e2, env.telemetry j = .error e2 → e2 = e)) ∨
    (∃ src, env.snapshot (j + 1) = .ok src ∧ (∀ e2, env.telemetry j ≠ .error e2) ∧
       ∃ e s1 s2 s3,
       env.writeErr (save_filename cfg.save_dir (env.snapTime (j + 1))) = some e ∧
       loop_iteration cfg env j fs = (.error e, fs,
         [.getSnapshot (j + 1), .getTelemetry j, .drawText (10, 10) s1, .drawText (10, 40) s2,
          .drawText (10, 70) s3,
          .fsWrite (save_filename cfg.save_dir (env.snapTime (j + 1)))])) ∨
    (∃ src, env.snapshot (j + 1) = .ok src ∧ (∀ e2, env.telemetry j ≠ .error e2) ∧
       env.writeErr (save_filename cfg.save_dir (env.snapTime (j + 1))) = none ∧
       ∃ s1 s2 s3 im2,
       loop_iteration cfg env j fs = (.ok (),
         fsWriteF (save_filename cfg.save_dir (env.snapTime (j + 1))) im2 fs,
         [.getSnapshot (j + 1), .getTelemetry j, .drawText (10, 10) s1, .drawText (10, 40) s2,
          .drawText (10, 70) s3,
          .fsWrite (save_filename cfg.save_dir (env.snapTime (j + 1))),
          .printLine ("Image saved to " ++ save_filename cfg.save_dir (env.snapTime (j + 1))),
          .sleepSec cfg.timeout])) := by
  cases hsnap : env.snapshot (j + 1) with
  | error e =>
    left
    exact ⟨e, rfl, by simp [loop_iteration, get_image, hsnap]⟩
  | ok src =>
    rcases embed_text_char env j ⟨src, []⟩ (env.snapTime (j + 1)) with
      ⟨e, htel, hembed⟩ | ⟨d, htel, e, hembed⟩ | ⟨d, htel, s1, s2, s3, im2, hembed⟩
    · right; left
      refine ⟨src, rfl, e, by simp [loop_iteration, get_image, hsnap, hembed], ?_⟩
      intro e2 h2
      rw [htel] at h2
      exact (Except.error.inj h2).symm
    · right; left
      refine ⟨src, rfl, e, by simp [loop_iteration, get_image, hsnap, hembed], ?_⟩
      intro e2 h2
      rw [htel] at h2
      exact Except.noConfusion h2
    · cases hw : env.writeErr (save_filename cfg.save_dir (env.snapTime (j + 1))) with
      | some e =>
        right; right; left
        refine ⟨src, rfl, ?_, e, s1, s2, s3, rfl, ?_⟩
        · intro e2 h2
          rw [htel] at h2
          exact Except.noConfusion h2
        · simp [loop_iteration, get_image, save_image, hsnap, hembed, hw]
      | none =>
        right; right; right
        refine ⟨src, rfl, ?_, rfl, s1, s2, s3, im2, ?_⟩
        · intro e2 h2
          rw [htel] at h2
          exact Except.noConfusion h2
        · simp [loop_iteration, get_image, save_image, hsnap, hembed, hw]

/-- Trace discipline of the bounded loop: snapshot and telemetry
requests carry strictly increasing per-iteration indices (so each is
attempted at most once), the status request never recurs, and any
environment-designated failure of an attempted operation is the loop's
result. -/
theorem run_loop_ops (cfg : Config) (env : Env) :
    ∀ (n j : Nat) (fs : FS),
    (∀ i, Event.getSnapshot i ∈ (run_loop cfg env n j fs).2.2 → j + 1 ≤ i ∧ i ≤ j + n) ∧
    (∀ i, Event.getTelemetry i ∈ (run_loop cfg env n j fs).2.2 → j ≤ i ∧ i < j + n) ∧
    (Event.getStatus ∉ (run_loop cfg env n j fs).2.2) ∧
    (∀ i, (run_loop cfg env n j fs).2.2.count (Event.getSnapshot i) ≤ 1) ∧
    (∀ i, (run_loop cfg env n j fs).2.2.count (Event.getTelemetry i) ≤ 1) ∧
    (∀ i e, env.snapshot i = .error e → Event.getSnapshot i ∈ (run_loop cfg env n j fs).2.2 →
       (run_loop cfg env n j fs).1 = .error e) ∧
    (∀ i e, env.telemetry i = .error e → Event.getTelemetry i ∈ (run_loop cfg env n j fs).2.2 →
       (run_loop cfg env n j fs).1 = .error e) ∧
    (∀ p e, env.writeErr p = some e → Event.fsWrite p ∈ (run_loop cfg env n j fs).2.2 →
       (run_loop cfg env n j fs).1 = .error e) := by
  intro n
  induction n with
  | zero =>
    intro j fs
    simp [run_loop]
  | succ n ih =>
    intro j fs
    rcases loop_iteration_char cfg env j fs with
      ⟨e0, hsnap, hiter⟩ | ⟨src, hsnap, e0, hiter, huniq⟩ |
      ⟨src, hsnap, htelne, e0, s1, s2, s3, hw, hiter⟩ |
      ⟨src, hsnap, htelne, hw, s1, s2, s3, im2, hiter⟩
    · have hrl : run_loop cfg env (n + 1) j fs = (.error e0, fs, [.getSnapshot (j + 1)]) := by
        unfold run_loop
        rw [hiter]
      rw [hrl]
      refine ⟨?_, ?_, ?_, ?_, ?_, ?_, ?_, ?_⟩
      · intro i hi; simp at hi; omega
      · intro i hi; simp at hi
      · simp
      · intro i; simp [List.count_cons]; split <;> simp
      · intro i; simp [List.count_cons]
      · intro i e he hi
        simp at hi
        subst hi
        rw [hsnap] at he
        rw [Except.error.inj he]
      · intro i e he hi; simp at hi
      · intro p e he hi; simp at hi
    · have hrl : run_loop cfg env (n + 1) j fs =
          (.error e0, fs, [.getSnapshot (j + 1), .getTelemetry j]) := by
        unfold run_loop
        rw [hiter]
      rw [hrl]
      refine ⟨?_, ?_, ?_, ?_, ?_, ?_, ?_, ?_⟩
      · intro i hi; simp at hi; omega
      · intro i hi; simp at hi; omega
      · simp
      · intro i; simp [List.count_cons]; split <;> simp
      · intro i; simp [List.count_cons]; split <;> simp
      · intro i e he hi
        simp at hi
        subst hi
        rw [hsnap] at he
        exact Except.noConfusion he
      · intro i e he hi
        simp at hi
        subst hi
        rw [huniq e he]
      · intro p e he hi; simp at hi
    · have hrl : run_loop cfg env (n + 1) j fs = (.error e0, fs,
          [.getSnapshot (j + 1), .getTelemetry j, .drawText (10, 10) s1, .drawText (10, 40) s2,
           .drawText (10, 70) s3,
           .fsWrite (save_filename cfg.save_dir (env.snapTime (j + 1)))]) := by
        unfold run_loop
        rw [hiter]
      rw [hrl]
      refine ⟨?_, ?_, ?_, ?_, ?_, ?_, ?_, ?_⟩
      · intro i hi; simp at hi; omega
      · intro i hi; simp at hi; omega
      · simp
      · intro i; simp [List.count_cons]; split <;> simp
      · intro i; simp [List.count_cons]; split <;> simp
      · intro i e he hi
        simp at hi
        subst hi
        rw [hsnap] at he
        exact Except.noConfusion he
      · intro i e he hi
        simp at hi
        subst hi
        exact absurd he (htelne e)
      · intro p e he hi
        simp at hi
        subst hi
        rw [hw] at he
        rw [Option.some.inj he]
    · rcases hrest : run_loop cfg env n (j + 1) (fsWriteF
          (save_filename cfg.save_dir (env.snapTime (j + 1))) im2 fs) with ⟨r2, fs3, tr2⟩
      have ihx := ih (j + 1) (fsWriteF (save_filename cfg.save_dir (env.snapTime (j + 1))) im2 fs)
      rw [hrest] at ihx
      obtain ⟨ih1, ih2, ih3, ih4, ih5, ih6, ih7, ih8⟩ := ihx
      have hrl0 : run_loop cfg env (n + 1) j fs =
          (match run_loop cfg env n (j + 1)
              (fsWriteF (save_filename cfg.save_dir (env.snapTime (j + 1))) im2 fs) with
           | (r, f3, t2) => (r, f3,
              [Event.getSnapshot (j + 1), .getTelemetry j, .drawText (10, 10) s1,
               .drawText (10, 40) s2, .drawText (10, 70) s3,
               .fsWrite (save_filename cfg.save_dir (env.snapTime (j + 1))),
               .printLine ("Image saved to " ++ save_filename cfg.save_dir (env.snapTime (j + 1))),
               .sleepSec cfg.timeout] ++ t2)) := by
        conv_lhs => unfold run_loop
        rw [hiter]
      rw [hrest] at hrl0
      have hrl : run_loop cfg env (n + 1) j fs = (r2, fs3,
          [Event.getSnapshot (j + 1), .getTelemetry j, .drawText (10, 10) s1,
           .drawText (10, 40) s2, .drawText (10, 70) s3,
           .fsWrite (save_filename cfg.save_dir (env.snapTime (j + 1))),
           .printLine ("Image saved to " ++ save_filename cfg.save_dir (env.snapTime (j + 1))),
           .sleepSec cfg.timeout] ++ tr2) := hrl0
      rw [hrl]
      refine ⟨?_, ?_, ?_, ?_, ?_, ?_, ?_, ?_⟩
      · intro i hi
        simp at hi
        rcases hi with hi | hi
        · omega
        · have := ih1 i (by simpa using hi)
          omega
      · intro i hi
        simp at hi
        rcases hi with hi | hi
        · omega
        · have := ih2 i (by simpa using hi)
          omega
      · simp only [List.mem_append]
        rintro (hi | hi)
        · simp at hi
        · exact ih3 hi
      · intro i
        rw [List.count_append]
        by_cases hij : i = j + 1
        · have h0 : tr2.count (Event.getSnapshot i) = 0 := by
            rw [List.count_eq_zero]
            intro hmem
            have := ih1 i hmem
            omega
          subst hij
          rw [h0]
          simp [List.count_cons]
        · have h0 : List.count (Event.getSnapshot i)
              [Event.getSnapshot (j + 1), .getTelemetry j, .drawText (10, 10) s1,
               .drawText (10, 40) s2, .drawText (10, 70) s3,
               .fsWrite (save_filename cfg.save_dir (env.snapTime (j + 1))),
               .printLine ("Image saved to " ++ save_filename cfg.save_dir (env.snapTime (j + 1))),
               .sleepSec cfg.timeout] = 0 := by
            rw [List.count_eq_zero]
            intro hmem
            simp at hmem
            omega
          rw [h0]
          simpa using ih4 i
      · intro i
        rw [List.count_append]
        by_cases hij : i = j
        · have h0 : tr2.count (Event.getTelemetry i) = 0 := by
            rw [List.count_eq_zero]
            intro hmem
            have := ih2 i hmem
            omega
          subst hij
          rw [h0]
          simp [List.count_cons]
        · have h0 : List.count (Event.getTelemetry i)
              [Event.getSnapshot (j + 1), .getTelemetry j, .drawText (10, 10) s1,
               .drawText (10, 40) s2, .drawText (10, 70) s3,
               .fsWrite (save_filename cfg.save_dir (env.snapTime (j + 1))),
               .printLine ("Image saved to " ++ save_filename cfg.save_dir (env.snapTime (j + 1))),
               .sleepSec cfg.timeout] = 0 := by
            rw [List.count_eq_zero]
            intro hmem
            simp at hmem
            omega
          rw [h0]
          simpa using ih5 i
      · intro i e he hi
        simp only [List.mem_append] at hi
        rcases hi with hi | hi
        · simp at hi
          subst hi
          rw [hsnap] at he
          exact Except.noConfusion he
        · exact ih6 i e he hi
      · intro i e he hi
        simp only [List.mem_append] at hi
        rcases hi with hi | hi
        · simp at hi
          subst hi
          exact absurd he (htelne e)
        · exact ih7 i e he hi
      · intro p e he hi
        simp only [List.mem_append] at hi
        rcases hi with hi | hi
        · simp at hi
          subst hi
          rw [hw] at he
          exact Option.noConfusion he
        · exact ih8 p e he hi

/-- Trace discipline of the startup estimator: it performs snapshot
fetch 0 at most once, no telemetry or status request, and a designated
failure of its fetch or its temp-file write is its result. -/
theorem estimate_ops (cfg : Config) (env : Env) (fs : FS) :
    (∀ i, Event.getSnapshot i ∈ (estimate_size_per_hour cfg env fs).2.2 → i = 0) ∧
    (∀ i, Event.getTelemetry i ∉ (estimate_size_per_hour cfg env fs).2.2) ∧
    (Event.getStatus ∉ (estimate_size_per_hour cfg env fs).2.2) ∧
    (∀ i, (estimate_size_per_hour cfg env fs).2.2.count (Event.getSnapshot i) ≤ 1) ∧
    (∀ i, (estimate_size_per_hour cfg env fs).2.2.count (Event.getTelemetry i) = 0) ∧
    (∀ i e, env.snapshot i = .error e →
      Event.getSnapshot i ∈ (estimate_size_per_hour cfg env fs).2.2 →
      (estimate_size_per_hour cfg env fs).1 = .error e) ∧
    (∀ p e, env.writeErr p = some e →
      Event.fsWrite p ∈ (estimate_size_per_hour cfg env fs).2.2 →
      (estimate_size_per_hour cfg env fs).1 = .error e) := by
  cases hsnap : env.snapshot 0 with
  | error e =>
    have hq : estimate_size_per_hour cfg env fs = (.error e, fs, [.getSnapshot 0]) := by
      simp [estimate_size_per_hour, get_image, hsnap]
    rw [hq]
    refine ⟨?_, ?_, ?_, ?_, ?_, ?_, ?_⟩
    · intro i hi; simpa using hi
    · intro i hi; simp at hi
    · simp
    · intro i; simp [List.count_cons]; split <;> simp
    · intro i; simp [List.count_cons]
    · intro i e2 he hi
      simp at hi
      subst hi
      rw [hsnap] at he
      rw [Except.error.inj he]
    · intro p e2 he hi; simp at hi
  | ok src =>
    cases hw : env.writeErr "test.jpg" with
    | some e =>
      have hq : estimate_size_per_hour cfg env fs =
          (.error e, fs, [.getSnapshot 0, .fsWrite "test.jpg"]) := by
        simp [estimate_size_per_hour, get_image, hsnap, hw]
      rw [hq]
      refine ⟨?_, ?_, ?_, ?_, ?_, ?_, ?_⟩
      · intro i hi; simpa using hi
      · intro i hi; simp at hi
      · simp
      · intro i; simp [List.count_cons]; split <;> simp
      · intro i; simp [List.count_cons]
      · intro i e2 he hi
        simp at hi
        subst hi
        rw [hsnap] at he
        exact Except.noConfusion he
      · intro p e2 he hi
        simp at hi
        subst hi
        rw [hw] at he
        rw [Option.some.inj he]
    | none =>
      have hq : estimate_size_per_hour cfg env fs =
          (.ok ((env.frameSize src : Rat) * 3600 / cfg.timeout),
           fsErase "test.jpg" (fsWriteF "test.jpg" ⟨src, []⟩ fs),
           [.getSnapshot 0, .fsWrite "test.jpg", .fsGetSize "test.jpg", .fsRemove "test.jpg"]) := by
        unfold estimate_size_per_hour get_image
        rw [hsnap, hw]
        rfl
      rw [hq]
      refine ⟨?_, ?_, ?_, ?_, ?_, ?_, ?_⟩
      · intro i hi; simpa using hi
      · intro i hi; simp at hi
      · simp
      · intro i; simp [List.count_cons]; split <;> simp
      · intro i; simp [List.count_cons]
      · intro i e2 he hi
        simp at hi
        subst hi
        rw [hsnap] at he
        exact Except.noConfusion he
      · intro p e2 he hi
        simp at hi
        subst hi
        rw [hw] at he
        exact Option.noConfusion he

/-- C8: no retries exist anywhere.  In every run: the status request,
each snapshot request and each telemetry request is attempted at most
once (no operation is re-attempted); whenever an attempted operation is
designated to fail by the environment — camera status fetch, snapshot
fetch/decode, telemetry fetch, or a file write — that error, unhandled,
is the run's result; and every erroneous result exits the process with
the non-zero status 1. -/
theorem no_retries_fatal_errors (cfg : Config) (env : Env) (fuel : Nat) (fs : FS) :
    ((main_run cfg env fuel fs).2.2.count Event.getStatus ≤ 1) ∧
    (∀ k, (main_run cfg env fuel fs).2.2.count (Event.getSnapshot k) ≤ 1) ∧
    (∀ k, (main_run cfg env fuel fs).2.2.count (Event.getTelemetry k) ≤ 1) ∧
    (∀ e, env.cameraStatus = .error e → (main_run cfg env fuel fs).1 = .error e) ∧
    (∀ k e, env.snapshot k = .error e → Event.getSnapshot k ∈ (main_run cfg env fuel fs).2.2 →
       (main_run cfg env fuel fs).1 = .error e) ∧
    (∀ k e, env.telemetry k = .error e → Event.getTelemetry k ∈ (main_run cfg env fuel fs).2.2 →
       (main_run cfg env fuel fs).1 = .error e) ∧
    (∀ p e, env.writeErr p = some e → Event.fsWrite p ∈ (main_run cfg env fuel fs).2.2 →
       (main_run cfg env fuel fs).1 = .error e) ∧
    (∀ e, (main_run cfg env fuel fs).1 = .error e → exit_code (main_run cfg env fuel fs).1 = 1) := by
  cases hcs : env.cameraStatus with
  | error e0 =>
    have hq : main_run cfg env fuel fs = (.error e0, fs, [.getStatus]) := by
      unfold main_run get_camera_status
      rw [hcs]
    rw [hq]
    refine ⟨by simp, ?_, ?_, ?_, ?_, ?_, ?_, ?_⟩
    · intro k; simp [List.count_cons]
    · intro k; simp [List.count_cons]
    · intro e he
      simpa using he
    · intro k e he hi; simp at hi
    · intro k e he hi; simp at hi
    · intro p e he hi; simp at hi
    · intro e _; rfl
  | ok status =>
    cases hval : validate_capability status with
    | error e0 =>
      have hq : main_run cfg env fuel fs = (.error e0, fs, [.getStatus]) := by
        unfold main_run get_camera_status
        rw [hcs]
        simp only [hval]
      rw [hq]
      refine ⟨by simp, ?_, ?_, ?_, ?_, ?_, ?_, ?_⟩
      · intro k; simp [List.count_cons]
      · intro k; simp [List.count_cons]
      · intro e he
        exact Except.noConfusion he
      · intro k e he hi; simp at hi
      · intro k e he hi; simp at hi
      · intro p e he hi; simp at hi
      · intro e _; rfl
    | ok wh =>
      obtain ⟨width, height⟩ := wh
      rcases hest : estimate_size_per_hour cfg env fs with ⟨eres, fs2, etr⟩
      have hesto := estimate_ops cfg env fs
      rw [hest] at hesto
      obtain ⟨est1, est2, est3, est4, est5, est6, est7⟩ := hesto
      cases eres with
      | error e0 =>
        have hq : main_run cfg env fuel fs = (.error e0, fs2,
            .getStatus :: .printLine ("Snapshot resolution: " ++ pyStr width ++ "x" ++
              pyStr height) :: etr) := by
          unfold main_run get_camera_status
          rw [hcs]
          simp only [hval]
          rw [hest]
          rfl
        rw [hq]
        refine ⟨?_, ?_, ?_, ?_, ?_, ?_, ?_, ?_⟩
        · simp [List.count_cons]
          rw [List.count_eq_zero]
          exact est3
        · intro k
          simp [List.count_cons]
          exact est4 k
        · intro k
          simp [List.count_cons]
          simp [est5 k]
        · intro e he
          exact Except.noConfusion he
        · intro k e he hi
          simp at hi
          have := est6 k e he hi
          simp at this
          rw [this]
        · intro k e he hi
          simp at hi
          exact absurd hi (est2 k)
        · intro p e he hi
          simp at hi
          have := est7 p e he hi
          simp at this
          rw [this]
        · intro e _; rfl
      | ok sph =>
        rcases hloop : run_loop cfg env fuel 0 fs2 with ⟨r3, fs3, ltr⟩
        have hlo := run_loop_ops cfg env fuel 0 fs2
        rw [hloop] at hlo
        obtain ⟨lo1, lo2, lo3, lo4, lo5, lo6, lo7, lo8⟩ := hlo
        have hq0 : main_run cfg env fuel fs =
            (match run_loop cfg env fuel 0 fs2 with
             | (r, f, t) => (r, f,
                Event.getStatus :: .printLine ("Snapshot resolution: " ++ pyStr width ++ "x" ++
                  pyStr height) ::
                ((etr ++ [Event.printLine ("Estimated size per hour: " ++
                   format_byte_size sph ++ " (" ++
                   pyFloatStr (estimate_frames_per_hour cfg) ++ " frames)")]) ++ t))) := by
          unfold main_run get_camera_status
          rw [hcs]
          simp only [hval]
          rw [hest]
          rfl
        rw [hloop] at hq0
        have hq : main_run cfg env fuel fs = (r3, fs3,
            Event.getStatus :: .printLine ("Snapshot resolution: " ++ pyStr width ++ "x" ++
              pyStr height) ::
            ((etr ++ [Event.printLine ("Estimated size per hour: " ++
               format_byte_size sph ++ " (" ++
               pyFloatStr (estimate_frames_per_hour cfg) ++ " frames)")]) ++ ltr)) := hq0
        rw [hq]
        refine ⟨?_, ?_, ?_, ?_, ?_, ?_, ?_, ?_⟩
        · simp [List.count_cons, List.count_append]
          constructor
          · rw [List.count_eq_zero]
            exact est3
          · rw [List.count_eq_zero]
            exact lo3
        · intro k
          simp [List.count_cons, List.count_append]
          by_cases hk : k = 0
          · subst hk
            have h0 : ltr.count (Event.getSnapshot 0) = 0 := by
              rw [List.count_eq_zero]
              intro hmem
              have := lo1 0 hmem
              omega
            rw [h0]
            simpa using est4 0
          · have h0 : etr.count (Event.getSnapshot k) = 0 := by
              rw [List.count_eq_zero]
              intro hmem
              exact hk (est1 k hmem)
            rw [h0]
            simpa using lo4 k
        · intro k
          simp [List.count_cons, List.count_append]
          rw [est5 k]
          simpa using lo5 k
        · intro e he
          exact Except.noConfusion he
        · intro k e he hi
          simp only [List.mem_cons, List.mem_append, List.mem_singleton] at hi
          rcases hi with hi | hi | (hi | hi | hi) | hi
          · exact Event.noConfusion hi
          · exact Event.noConfusion hi
          · have := est6 k e he hi
            simp at this
          · exact Event.noConfusion hi
          · simp at hi
          · exact lo6 k e he hi
        · intro k e he hi
          simp only [List.mem_cons, List.mem_append, List.mem_singleton] at hi
          rcases hi with hi | hi | (hi | hi | hi) | hi
          · exact Event.noConfusion hi
          · exact Event.noConfusion hi
          · exact absurd hi (est2 k)
          · exact Event.noConfusion hi
          · simp at hi
          · exact lo7 k e he hi
        · intro p e he hi
          simp only [List.mem_cons, List.mem_append, List.mem_singleton] at hi
          rcases hi with hi | hi | (hi | hi | hi) | hi
          · exact Event.noConfusion hi
          · exact Event.noConfusion hi
          · have := est7 p e he hi
            simp at this
          · exact Event.noConfusion hi
          · simp at hi
          · exact lo8 p e he hi
        · intro e hr
          rw [hr]
          rfl

/-- C8 witness: a failing camera status request terminates the run with
that error and exit status 1. -/
theorem no_retries_fatal_errors_witness :
    (main_run defaultConfig
        ⟨.error .requestError, fun _ => .ok 0, fun _ => ⟨2024, 1, 1, 0, 0, 0⟩,
         fun _ => 1, fun _ => .ok (.jobj []), fun _ => none, "CET"⟩ 3 []).1 =
      .error .requestError ∧
    exit_code (main_run defaultConfig
        ⟨.error .requestError, fun _ => .ok 0, fun _ => ⟨2024, 1, 1, 0, 0, 0⟩,
         fun _ => 1, fun _ => .ok (.jobj []), fun _ => none, "CET"⟩ 3 []).1 = 1 := by
  have h := no_retries_fatal_errors defaultConfig
    ⟨.error .requestError, fun _ => .ok 0, fun _ => ⟨2024, 1, 1, 0, 0, 0⟩,
     fun _ => 1, fun _ => .ok (.jobj []), fun _ => none, "CET"⟩ 3 []
  exact ⟨h.2.2.2.1 .requestError rfl,
    h.2.2.2.2.2.2.2 .requestError (h.2.2.2.1 .requestError rfl)⟩

/-- Collapse consecutive repeats, keeping the order of phase changes. -/
def collapseRuns : List Phase → List Phase
  | [] => []
  | [a] => [a]
  | a :: b :: rest => if a = b then collapseRuns (b :: rest) else a :: collapseRuns (b :: rest)

theorem collapseRuns_append (xs ys : List Phase)
    (h : ∀ a b, xs.getLast? = some a → ys.head? = some b → a ≠ b) :
    collapseRuns (xs ++ ys) = collapseRuns xs ++ collapseRuns ys := by
  have hcc : ∀ (a b : Phase) (l : List Phase),
      collapseRuns (a :: b :: l) =
        if a = b then collapseRuns (b :: l) else a :: collapseRuns (b :: l) := fun a b l => rfl
  induction xs with
  | nil => simp [collapseRuns]
  | cons x xs ih =>
    cases xs with
    | nil =>
      cases ys with
      | nil => simp [collapseRuns]
      | cons y ys2 =>
        have hxy : x ≠ y := h x y rfl rfl
        show collapseRuns (x :: y :: ys2) = collapseRuns [x] ++ collapseRuns (y :: ys2)
        rw [hcc x y ys2, if_neg hxy]
        rfl
    | cons x2 xs2 =>
      have ih2 := ih (fun a b ha hb =>
        h a b (by rw [List.getLast?_cons_cons]; exact ha) hb)
      show collapseRuns (x :: x2 :: (xs2 ++ ys)) = collapseRuns (x :: x2 :: xs2) ++ collapseRuns ys
      rw [List.cons_append] at ih2
      rw [hcc x x2 (xs2 ++ ys), hcc x x2 xs2]
      by_cases hxx : x = x2
      · rw [if_pos hxx, if_pos hxx, ih2]
      · rw [if_neg hxx, if_neg hxx, ih2]
        rfl

/-- The result and trace of an iteration do not depend on the current
file store (only the updated store does). -/
theorem loop_iteration_fs_indep (cfg : Config) (env : Env) (j : Nat) (fs fs2 : FS) :
    (loop_iteration cfg env j fs).1 = (loop_iteration cfg env j fs2).1 ∧
    (loop_iteration cfg env j fs).2.2 = (loop_iteration cfg env j fs2).2.2 := by
  unfold loop_iteration
  generalize get_image env (j + 1) = gp
  obtain ⟨gres, gtr⟩ := gp
  cases gres with
  | error e => simp
  | ok p =>
    obtain ⟨im, now⟩ := p
    dsimp only
    generalize embed_text env j im now = ep
    obtain ⟨eres, etr⟩ := ep
    cases eres with
    | error e => simp
    | ok im2 =>
      dsimp only
      unfold save_image
      dsimp only
      generalize env.writeErr (save_filename cfg.save_dir now) = w
      cases w <;> simp

/-- A successful iteration's trace consists of exactly the phases
fetch, annotate (telemetry + three draws), persist (write + log line),
sleep, in that order. -/
theorem loop_iteration_ok_trace (cfg : Config) (env : Env) (j : Nat) (fs : FS)
    (h : (loop_iteration cfg env j fs).1 = .ok ()) :
    (loop_iteration cfg env j fs).2.2.map phaseOf =
      [Phase.fetch, .annotate, .annotate, .annotate, .annotate, .persist, .persist, .sleep] := by
  rcases loop_iteration_char cfg env j fs with
    ⟨e0, _, hiter⟩ | ⟨src, _, e0, hiter, _⟩ | ⟨src, _, _, e0, s1, s2, s3, _, hiter⟩ |
    ⟨src, _, _, _, s1, s2, s3, im2, hiter⟩
  · rw [hiter] at h; exact absurd h (by simp)
  · rw [hiter] at h; exact absurd h (by simp)
  · rw [hiter] at h; exact absurd h (by simp)
  · rw [hiter]; rfl

/-- A nonempty loop trace begins with the next snapshot fetch. -/
theorem run_loop_trace_head (cfg : Config) (env : Env) (n j : Nat) (fs : FS) :
    (run_loop cfg env n j fs).2.2 = [] ∨
    ∃ l, (run_loop cfg env n j fs).2.2 = Event.getSnapshot (j + 1) :: l := by
  cases n with
  | zero => left; rfl
  | succ n =>
    right
    rcases loop_iteration_char cfg env j fs with
      ⟨e0, _, hiter⟩ | ⟨src, _, e0, hiter, _⟩ | ⟨src, _, _, e0, s1, s2, s3, _, hiter⟩ |
      ⟨src, _, _, hw, s1, s2, s3, im2, hiter⟩
    · have hrl : run_loop cfg env (n + 1) j fs = (.error e0, fs, [.getSnapshot (j + 1)]) := by
        unfold run_loop
        rw [hiter]
      exact ⟨[], by rw [hrl]⟩
    · have hrl : run_loop cfg env (n + 1) j fs =
          (.error e0, fs, [.getSnapshot (j + 1), .getTelemetry j]) := by
        unfold run_loop
        rw [hiter]
      exact ⟨[.getTelemetry j], by rw [hrl]⟩
    · have hrl : run_loop cfg env (n + 1) j fs = (.error e0, fs,
          [.getSnapshot (j + 1), .getTelemetry j, .drawText (10, 10) s1, .drawText (10, 40) s2,
           .drawText (10, 70) s3,
           .fsWrite (save_filename cfg.save_dir (env.snapTime (j + 1)))]) := by
        unfold run_loop
        rw [hiter]
      exact ⟨_, by rw [hrl]⟩
    · rcases hrest : run_loop cfg env n (j + 1)
          (fsWriteF (save_filename cfg.save_dir (env.snapTime (j + 1))) im2 fs) with ⟨r2, fs3, tr2⟩
      have hrl0 : run_loop cfg env (n + 1) j fs =
          (match run_loop cfg env n (j + 1)
              (fsWriteF (save_filename cfg.save_dir (env.snapTime (j + 1))) im2 fs) with
           | (r, f3, t2) => (r, f3,
              [Event.getSnapshot (j + 1), .getTelemetry j, .drawText (10, 10) s1,
               .drawText (10, 40) s2, .drawText (10, 70) s3,
               .fsWrite (save_filename cfg.save_dir (env.snapTime (j + 1))),
               .printLine ("Image saved to " ++ save_filename cfg.save_dir (env.snapTime (j + 1))),
               .sleepSec cfg.timeout] ++ t2)) := by
        conv_lhs => unfold run_loop
        rw [hiter]
      rw [hrest] at hrl0
      exact ⟨[.getTelemetry j, .drawText (10, 10) s1, .drawText (10, 40) s2,
              .drawText (10, 70) s3,
              .fsWrite (save_filename cfg.save_dir (env.snapTime (j + 1))),
              .printLine ("Image saved to " ++ save_filename cfg.save_dir (env.snapTime (j + 1))),
              .sleepSec cfg.timeout] ++ tr2, by rw [hrl0]; rfl⟩

/-- When every scheduled iteration succeeds, the loop's phase trace is
exactly `n` repetitions of fetch, annotate, persist, sleep. -/
theorem run_loop_phases (cfg : Config) (env : Env) :
    ∀ (n j : Nat) (fs : FS),
    (∀ i, i < n → (loop_iteration cfg env (j + i) fs).1 = .ok ()) →
    (run_loop cfg env n j fs).1 = .ok () ∧
    collapseRuns ((run_loop cfg env n j fs).2.2.map phaseOf) =
      (List.replicate n [Phase.fetch, Phase.annotate, Phase.persist, Phase.sleep]).join := by
  intro n
  induction n with
  | zero =>
    intro j fs h
    exact ⟨rfl, by simp [run_loop, collapseRuns]⟩
  | succ n ih =>
    intro j fs h
    have h0 : (loop_iteration cfg env j fs).1 = .ok () := by
      have := h 0 (by omega)
      simpa using this
    rcases hit : loop_iteration cfg env j fs with ⟨ires, fs2, itr⟩
    have hires : ires = .ok () := by rw [hit] at h0; exact h0
    subst hires
    rcases hrest : run_loop cfg env n (j + 1) fs2 with ⟨r2, fs3, tr2⟩
    have ihx := ih (j + 1) fs2 (fun i hi => by
      rw [(loop_iteration_fs_indep cfg env (j + 1 + i) fs2 fs).1]
      have := h (i + 1) (by omega)
      rwa [show j + (i + 1) = j + 1 + i by omega] at this)
    rw [hrest] at ihx
    obtain ⟨ihres, ihcol⟩ := ihx
    have hphase : itr.map phaseOf =
        [Phase.fetch, .annotate, .annotate, .annotate, .annotate, .persist, .persist, .sleep] := by
      have hx := loop_iteration_ok_trace cfg env j fs (by rw [hit])
      rw [hit] at hx
      exact hx
    have hrl0 : run_loop cfg env (n + 1) j fs =
        (match run_loop cfg env n (j + 1) fs2 with
         | (r, f3, t2) => (r, f3, itr ++ t2)) := by
      conv_lhs => unfold run_loop
      rw [hit]
    rw [hrest] at hrl0
    have hrl : run_loop cfg env (n + 1) j fs = (r2, fs3, itr ++ tr2) := hrl0
    refine ⟨by rw [hrl]; exact ihres, ?_⟩
    rw [hrl]
    show collapseRuns ((itr ++ tr2).map phaseOf) = _
    rw [List.map_append]
    rw [collapseRuns_append _ _ ?hbound]
    case hbound =>
      intro a b ha hb
      rw [hphase] at ha
      simp at ha
      subst ha
      rcases run_loop_trace_head cfg env n (j + 1) fs2 with hemp | ⟨l, hcons⟩
      · rw [hrest] at hemp
        dsimp only at hemp
        rw [hemp] at hb
        simp at hb
      · rw [hrest] at hcons
        dsimp only at hcons
        rw [hcons] at hb
        simp at hb
        subst hb
        simp [phaseOf]
    rw [hphase, ihcol]
    show [Phase.fetch, .annotate, .persist, .sleep] ++ _ = _
    simp [List.replicate_succ]

/-- C7: in the Running state every iteration performs exactly the
sequence fetch frame, then annotate, then persist, then sleep for the
fixed interval, the sleep starting only after the persist completes;
over any number of iterations the loop's phase trace is exactly that
four-phase pattern repeated, with no other steps and no reordering. -/
theorem running_loop_sequence (cfg : Config) (env : Env) (n : Nat) (fs : FS)
    (h : ∀ i, i < n → (loop_iteration cfg env i fs).1 = .ok ()) :
    (run_loop cfg env n 0 fs).1 = .ok () ∧
    collapseRuns ((run_loop cfg env n 0 fs).2.2.map phaseOf) =
      (List.replicate n [Phase.fetch, Phase.annotate, Phase.persist, Phase.sleep]).join :=
  run_loop_phases cfg env n 0 fs (by simpa using h)

/-- C7 witness: two iterations with all remote calls succeeding. -/
theorem running_loop_sequence_witness :
    (∀ i, i < 2 → (loop_iteration defaultConfig
        ⟨.ok (.jobj []), fun _ => .ok 0, fun _ => ⟨2024, 1, 1, 0, 0, 0⟩,
         fun _ => 1000, fun _ => .ok (.jobj []), fun _ => none, "CET"⟩ i []).1 = .ok ()) ∧
    collapseRuns ((run_loop defaultConfig
        ⟨.ok (.jobj []), fun _ => .ok 0, fun _ => ⟨2024, 1, 1, 0, 0, 0⟩,
         fun _ => 1000, fun _ => .ok (.jobj []), fun _ => none, "CET"⟩ 2 0 []).2.2.map phaseOf) =
      (List.replicate 2 [Phase.fetch, Phase.annotate, Phase.persist, Phase.sleep]).join := by
  have hiter : ∀ i, i < 2 → (loop_iteration defaultConfig
      ⟨.ok (.jobj []), fun _ => .ok 0, fun _ => ⟨2024, 1, 1, 0, 0, 0⟩,
       fun _ => 1000, fun _ => .ok (.jobj []), fun _ => none, "CET"⟩ i []).1 = .ok () := by
    intro i hi
    interval_cases i <;> rfl
  exact ⟨hiter, (running_loop_sequence defaultConfig
    ⟨.ok (.jobj []), fun _ => .ok 0, fun _ => ⟨2024, 1, 1, 0, 0, 0⟩,
     fun _ => 1000, fun _ => .ok (.jobj []), fun _ => none, "CET"⟩ 2 [] hiter).2⟩
